import Mathlib

/-!
Shallow embedding of the `sensor_toolkit` cleaning and analysis pipeline
(`src/sensor_toolkit/cleaners.py`, `src/sensor_toolkit/analyzers.py`).

Modelling conventions:
* `datetime` timestamps are modelled as `Int` seconds (datetimes are totally
  ordered and shifted by `timedelta(seconds=n)`, which is `+ n` here).
* Python `float` fields are modelled as `Option ℚ`: `none` is the NaN
  ("missing") sentinel, `some q` an ordinary numeric value.  Exact rational
  arithmetic stands in for IEEE doubles.
* `math.sqrt` is not rational-valued, so the analyzers are parameterized by
  an arbitrary function `sqrt : ℚ → ℚ` standing for the external primitive;
  no claim below depends on properties of the square root itself.
* Python's `list.sort` / `sort(key=...)` is a stable sort; it is modelled by
  `List.insertionSort` with the corresponding non-strict key order (Mathlib's
  `insertionSort` is stable for a total preorder).
* The `while expected_ts < next_ts` loop of `fill_missing_timestamps` is
  modelled with explicit fuel (`fillGapFuel`); for a positive interval the
  chosen fuel is enough for the loop to run to completion (proved below via
  the exact characterisation of the emitted timestamps), while for a
  non-positive interval the Python loop never terminates, which is captured
  by `fillGapFuel` consuming every amount of fuel (see the C2 theorem).
-/

/-- `SensorReading` from `validators.py`: timestamp (seconds), sensor id and
three measurement fields, each possibly NaN (`none`). -/
structure SensorReading where
  timestamp : Int
  sensor_id : String
  temperature : Option ℚ
  pressure : Option ℚ
  humidity : Option ℚ
deriving DecidableEq

/-- A throwaway default reading used only as the `List.getD` fallback. -/
def defaultReading : SensorReading := ⟨0, "", none, none, none⟩

/-- Dedup key, `(reading.timestamp, reading.sensor_id)` from `remove_duplicates`. -/
def SensorReading.key (r : SensorReading) : Int × String := (r.timestamp, r.sensor_id)

/-! ### remove_duplicates (cleaners.py lines 31-40) -/

/-- The loop of `remove_duplicates`: walk the readings, keep a `seen` set of
keys and append readings with unseen keys to the result accumulator. -/
def removeDupGo (seen : List (Int × String)) (result : List SensorReading) :
    List SensorReading → List SensorReading
  | [] => result
  | r :: rest =>
    if r.key ∈ seen then removeDupGo seen result rest
    else removeDupGo (r.key :: seen) (result ++ [r]) rest

/-- `remove_duplicates`: keep the first occurrence of each `(timestamp, sensor_id)` key. -/
def remove_duplicates (readings : List SensorReading) : List SensorReading :=
  removeDupGo [] [] readings

/-! ### clamp_outliers (cleaners.py lines 43-88) -/

/-- Python `<` on floats: any comparison involving NaN is false. -/
def pyLt : Option ℚ → Option ℚ → Bool
  | some a, some b => a < b
  | _, _ => false

/-- Python `min(a, b)`: returns `b` exactly when `b < a` (so `min(a, NaN) = a`). -/
def pymin (a b : Option ℚ) : Option ℚ := if pyLt b a then b else a

/-- Python `max(a, b)`: returns `b` exactly when `b > a` (so `max(a, NaN) = a`). -/
def pymax (a b : Option ℚ) : Option ℚ := if pyLt a b then b else a

/-- One field of `clamp_outliers`: `max(range[0], min(range[1], value))`. -/
def clampValue (lo hi v : Option ℚ) : Option ℚ := pymax lo (pymin hi v)

/-- Default `temp_range = (-40.0, 150.0)`. -/
def temp_range_default : Option ℚ × Option ℚ := (some (-40), some 150)

/-- Default `pressure_range = (0.0, 1000.0)`. -/
def pressure_range_default : Option ℚ × Option ℚ := (some 0, some 1000)

/-- Default `humidity_range = (0.0, 100.0)`. -/
def humidity_range_default : Option ℚ × Option ℚ := (some 0, some 100)

/-- The loop body of `clamp_outliers`: rebuild one reading with each
measurement field clamped by `max(lo, min(hi, v))`; timestamp and sensor id
are kept. -/
def clampReading (temp_range pressure_range humidity_range : Option ℚ × Option ℚ)
    (r : SensorReading) : SensorReading :=
  { timestamp := r.timestamp
    sensor_id := r.sensor_id
    temperature := clampValue temp_range.1 temp_range.2 r.temperature
    pressure := clampValue pressure_range.1 pressure_range.2 r.pressure
    humidity := clampValue humidity_range.1 humidity_range.2 r.humidity }

/-- `clamp_outliers`: clamp every reading, preserving order and count. -/
def clamp_outliers (readings : List SensorReading)
    (temp_range pressure_range humidity_range : Option ℚ × Option ℚ) :
    List SensorReading :=
  readings.map (clampReading temp_range pressure_range humidity_range)

/-! ### fill_missing_timestamps (cleaners.py lines 91-162) -/

/-- Group keys of the `by_sensor` dict: sensor ids in order of first appearance. -/
def groupKeys (readings : List SensorReading) : List String :=
  readings.foldl (fun ks r => if r.sensor_id ∈ ks then ks else ks ++ [r.sensor_id]) []

/-- The `by_sensor[sensor_id]` list: that sensor's readings in input order. -/
def sensorReadings (sid : String) (readings : List SensorReading) : List SensorReading :=
  readings.filter fun r => r.sensor_id == sid

/-- Per-sensor sort key `r.timestamp` (`by_sensor[sensor_id].sort(key=...)`). -/
def tsLe (a b : SensorReading) : Prop := a.timestamp ≤ b.timestamp

instance : DecidableRel tsLe := fun a b => inferInstanceAs (Decidable (a.timestamp ≤ b.timestamp))

instance : IsTotal SensorReading tsLe := ⟨fun a b => le_total a.timestamp b.timestamp⟩

instance : IsTrans SensorReading tsLe := ⟨fun _ _ _ h h' => le_trans h h'⟩

/-- The final sort key `(r.timestamp, r.sensor_id)` compared lexicographically,
with sensor ids compared as plain strings. -/
def keyLe (a b : SensorReading) : Prop :=
  a.timestamp < b.timestamp ∨ (a.timestamp = b.timestamp ∧ a.sensor_id ≤ b.sensor_id)

instance : DecidableRel keyLe := fun a b =>
  inferInstanceAs (Decidable
    (a.timestamp < b.timestamp ∨ (a.timestamp = b.timestamp ∧ a.sensor_id ≤ b.sensor_id)))

instance : IsTotal SensorReading keyLe := by
  constructor
  intro a b
  rcases lt_trichotomy a.timestamp b.timestamp with h | h | h
  · exact Or.inl (Or.inl h)
  · rcases le_total a.sensor_id b.sensor_id with h' | h'
    · exact Or.inl (Or.inr ⟨h, h'⟩)
    · exact Or.inr (Or.inr ⟨h.symm, h'⟩)
  · exact Or.inr (Or.inl h)

instance : IsTrans SensorReading keyLe := by
  constructor
  rintro a b c (h | ⟨h, h'⟩) (g | ⟨g, g'⟩)
  · exact Or.inl (lt_trans h g)
  · exact Or.inl (g ▸ h)
  · exact Or.inl (h ▸ g)
  · exact Or.inr ⟨h.trans g, h'.trans g'⟩

/-- A synthesized placeholder reading: the sensor's id, the synthetic
timestamp, NaN in all three measurement fields. -/
def placeholderReading (sid : String) (ts : Int) : SensorReading :=
  ⟨ts, sid, none, none, none⟩

/-- The `while expected_ts < next_ts` loop body, with explicit fuel: emit
`expected` and advance by `interval` while `expected < next`. -/
def fillGapFuel : Nat → Int → Int → Int → List Int
  | 0, _, _, _ => []
  | fuel + 1, expected, nextTs, interval =>
    if expected < nextTs then expected :: fillGapFuel fuel (expected + interval) nextTs interval
    else []

/-- Timestamps emitted for the gap between `curTs` and `nextTs`, starting at
`curTs + interval`.  The fuel `(nextTs - (curTs + interval)).toNat + 1` is
sufficient whenever `1 ≤ interval` (see the C3 characterisation theorem). -/
def gapTimestamps (curTs nextTs interval : Int) : List Int :=
  fillGapFuel ((nextTs - (curTs + interval)).toNat + 1) (curTs + interval) nextTs interval

/-- The placeholder readings synthesized between two consecutive readings of
one sensor. -/
def gapPlaceholders (sid : String) (curTs nextTs interval : Int) : List SensorReading :=
  (gapTimestamps curTs nextTs interval).map (placeholderReading sid)

/-- The per-sensor loop of `fill_missing_timestamps`: append each reading,
then the placeholders for the gap to the next reading, if any. -/
def emitWithGaps (sid : String) (interval : Int) : List SensorReading → List SensorReading
  | [] => []
  | [r] => [r]
  | r :: r' :: rest =>
    r :: (gapPlaceholders sid r.timestamp r'.timestamp interval ++
      emitWithGaps sid interval (r' :: rest))

/-- `fill_missing_timestamps`: group by sensor id, sort each group by
timestamp, emit readings with gap placeholders, then sort the merged result
by `(timestamp, sensor_id)`. -/
def fill_missing_timestamps (readings : List SensorReading) (interval_seconds : Int) :
    List SensorReading :=
  match readings with
  | [] => []
  | _ :: _ =>
    let body := (groupKeys readings).flatMap fun sid =>
      emitWithGaps sid interval_seconds
        (List.insertionSort tsLe (sensorReadings sid readings))
    List.insertionSort keyLe body

/-! ### analyzers.py -/

/-- `FieldStats`: per-field mean, median, population std, min, max; each may
be NaN (`none`). -/
structure FieldStats where
  mean : Option ℚ
  median : Option ℚ
  std : Option ℚ
  min : Option ℚ
  max : Option ℚ
deriving DecidableEq

/-- The all-NaN `FieldStats` returned for an empty sample list. -/
def FieldStats.allNaN : FieldStats := ⟨none, none, none, none, none⟩

/-- `StatsResult`: per-sensor bundle of a reading count and three `FieldStats`. -/
structure StatsResult where
  sensor_id : String
  reading_count : Nat
  temperature : FieldStats
  pressure : FieldStats
  humidity : FieldStats
deriving DecidableEq

/-- `Anomaly`: the offending reading, the field name, its value and z-score. -/
structure Anomaly where
  reading : SensorReading
  field : String
  value : Option ℚ
  z_score : Option ℚ
deriving DecidableEq

/-- Python `min(values)` over a non-empty list (pairwise `min`; the samples
fed to it are non-NaN, so plain rational `min`).  The `[]` case is never
reached: `_compute_stats` returns early on the empty list. -/
def pyListMin : List ℚ → ℚ
  | [] => 0
  | x :: xs => xs.foldl min x

/-- Python `max(values)` over a non-empty list. -/
def pyListMax : List ℚ → ℚ
  | [] => 0
  | x :: xs => xs.foldl max x

/-- `_compute_stats(values)` (analyzers.py lines 65-81), with `math.sqrt`
abstracted as the parameter `sqrt`. -/
def _compute_stats (sqrt : ℚ → ℚ) (values : List ℚ) : FieldStats :=
  match values with
  | [] => FieldStats.allNaN
  | _ :: _ =>
    let n := values.length
    let mean : ℚ := values.sum / n
    let sorted_vals := List.insertionSort (· ≤ ·) values
    let median : ℚ :=
      if n % 2 = 0 then (sorted_vals.getD (n / 2 - 1) 0 + sorted_vals.getD (n / 2) 0) / 2
      else sorted_vals.getD (n / 2) 0
    let variance : ℚ := (values.map fun x => (x - mean) ^ 2).sum / n
    { mean := some mean
      median := some median
      std := some (sqrt variance)
      min := some (pyListMin values)
      max := some (pyListMax values) }

/-- The per-sensor, per-field non-NaN sample list built by the grouping loop
of `calculate_statistics` (appends `f r` for each of the sensor's readings
when it is not NaN). -/
def fieldSamples (f : SensorReading → Option ℚ) (sid : String)
    (readings : List SensorReading) : List ℚ :=
  (sensorReadings sid readings).filterMap f

/-- One sensor's `StatsResult` as assembled by `calculate_statistics`:
`reading_count` is the max of the three sample-list lengths. -/
def statsFor (sqrt : ℚ → ℚ) (readings : List SensorReading) (sid : String) : StatsResult :=
  let temps := fieldSamples SensorReading.temperature sid readings
  let pressures := fieldSamples SensorReading.pressure sid readings
  let humidities := fieldSamples SensorReading.humidity sid readings
  { sensor_id := sid
    reading_count := Nat.max (Nat.max temps.length pressures.length) humidities.length
    temperature := _compute_stats sqrt temps
    pressure := _compute_stats sqrt pressures
    humidity := _compute_stats sqrt humidities }

/-- `calculate_statistics`: the result dict as an association list, keys in
first-appearance order. -/
def calculate_statistics (sqrt : ℚ → ℚ) (readings : List SensorReading) :
    List (String × StatsResult) :=
  (groupKeys readings).map fun sid => (sid, statsFor sqrt readings sid)

/-- Python float subtraction: NaN-propagating. -/
def pySub : Option ℚ → Option ℚ → Option ℚ
  | some a, some b => some (a - b)
  | _, _ => none

/-- Python `abs`: NaN-propagating. -/
def pyAbs : Option ℚ → Option ℚ
  | some a => some |a|
  | none => none

/-- Python float division, NaN-propagating.  At its only call site the
divisor has been checked `!= 0`, so `ZeroDivisionError` is unreachable and
is not modelled. -/
def pyDiv : Option ℚ → Option ℚ → Option ℚ
  | some a, some b => some (a / b)
  | _, _ => none

/-- Python `fstats.std == 0`: false when `std` is NaN. -/
def stdEqZero : Option ℚ → Bool
  | some a => a == 0
  | none => false

/-- Python `z > z_threshold` with `z` possibly NaN (then false). -/
def pyGtQ : Option ℚ → ℚ → Bool
  | some a, t => t < a
  | none, _ => false

/-- `detect_anomalies(readings, z_threshold)` (analyzers.py lines 120-154). -/
def detect_anomalies (sqrt : ℚ → ℚ) (readings : List SensorReading) (z_threshold : ℚ) :
    List Anomaly :=
  let stats := calculate_statistics sqrt readings
  readings.flatMap fun reading =>
    match stats.lookup reading.sensor_id with
    | none => []
    | some s =>
      let checks := [("temperature", reading.temperature, s.temperature),
                     ("pressure", reading.pressure, s.pressure),
                     ("humidity", reading.humidity, s.humidity)]
      checks.filterMap fun c =>
        if c.2.1.isNone || stdEqZero c.2.2.std then none
        else
          let z := pyDiv (pyAbs (pySub c.2.1 c.2.2.mean)) c.2.2.std
          if pyGtQ z z_threshold then
            some ⟨reading, c.1, c.2.1, z⟩
          else none

/-! ### Reference (spec-side) formulations used to state the claims -/

/-- Spec-side description of deduplication: keep the head reading and drop
every later reading sharing its exact key, recursively. -/
def specFirstOcc : List SensorReading → List SensorReading
  | [] => []
  | r :: rest => r :: specFirstOcc (rest.filter fun r' => !(r'.key == r.key))
termination_by l => l.length
decreasing_by
  simpa using Nat.lt_succ_of_le (List.length_filter_le _ rest)

/-- Two readings with the same `(timestamp, sensor_id)` sort key (the
equivalence classes of the total preorder `keyLe`). -/
def keyEq (a b : SensorReading) : Prop :=
  a.timestamp = b.timestamp ∧ a.sensor_id = b.sensor_id

instance : ∀ a b, Decidable (keyEq a b) := fun a b =>
  inferInstanceAs (Decidable (a.timestamp = b.timestamp ∧ a.sensor_id = b.sensor_id))

/-- Spec-side description of one field check of `detect_anomalies`: flag the
value exactly when it is numeric, the field's standard deviation is a
nonzero number, and the z-score `|value - mean| / std` strictly exceeds the
threshold. -/
def specAnomaliesFor (t : ℚ) (r : SensorReading) (fieldName : String)
    (v : Option ℚ) (fs : FieldStats) : List Anomaly :=
  match v, fs.mean, fs.std with
  | some q, some m, some sd =>
    if sd ≠ 0 ∧ t < |q - m| / sd then [⟨r, fieldName, some q, some (|q - m| / sd)⟩]
    else []
  | _, _, _ => []

/-- Spec-side description of `detect_anomalies`: for each reading in input
order, check temperature, pressure, humidity in that order against the
statistics that `calculate_statistics` computes for that reading's sensor
over the full input. -/
def specAnomalies (sqrt : ℚ → ℚ) (readings : List SensorReading) (t : ℚ) : List Anomaly :=
  readings.flatMap fun r =>
    let s := statsFor sqrt readings r.sensor_id
    specAnomaliesFor t r "temperature" r.temperature s.temperature ++
      specAnomaliesFor t r "pressure" r.pressure s.pressure ++
        specAnomaliesFor t r "humidity" r.humidity s.humidity

/-! ### Helper lemmas: remove_duplicates -/

/-- Tail-recursive reformulation of the dedup loop without the accumulator. -/
def dedupFrom (seen : List (Int × String)) : List SensorReading → List SensorReading
  | [] => []
  | r :: rest =>
    if r.key ∈ seen then dedupFrom seen rest
    else r :: dedupFrom (r.key :: seen) rest

lemma removeDupGo_eq (l : List SensorReading) :
    ∀ seen acc, removeDupGo seen acc l = acc ++ dedupFrom seen l := by
  induction l with
  | nil => intro seen acc; simp [removeDupGo, dedupFrom]
  | cons r rest ih =>
    intro seen acc
    by_cases h : r.key ∈ seen
    · simp [removeDupGo, dedupFrom, h, ih]
    · simp [removeDupGo, dedupFrom, h, ih]

lemma dedupFrom_eq_spec (l : List SensorReading) :
    ∀ seen, dedupFrom seen l = specFirstOcc (l.filter fun r => decide (r.key ∉ seen)) := by
  induction l with
  | nil => intro seen; simp [dedupFrom, specFirstOcc]
  | cons r rest ih =>
    intro seen
    by_cases h : r.key ∈ seen
    · rw [dedupFrom, if_pos h, List.filter_cons]
      simp [h, ih]
    · rw [dedupFrom, if_neg h, List.filter_cons]
      have hcons : (List.filter (fun r' => decide (r'.key ∉ seen)) (r :: rest)) =
          r :: List.filter (fun r' => decide (r'.key ∉ seen)) rest := by
        simp [List.filter_cons, h]
      simp only [h, not_false_eq_true, decide_True, if_pos, ih]
      have hspec : specFirstOcc (r :: List.filter (fun r' => decide (r'.key ∉ seen)) rest) =
          r :: specFirstOcc ((List.filter (fun r' => decide (r'.key ∉ seen)) rest).filter
            fun r' => !(r'.key == r.key)) := by
        simp [specFirstOcc]
      rw [hspec, List.filter_filter]
      congr 2
      apply List.filter_congr
      intro r' _
      by_cases h1 : r'.key = r.key <;> by_cases h2 : r'.key ∈ seen <;>
        simp [h1, h2]

lemma dedupFrom_sublist (l : List SensorReading) :
    ∀ seen, (dedupFrom seen l).Sublist l := by
  induction l with
  | nil => intro seen; simp [dedupFrom]
  | cons r rest ih =>
    intro seen
    by_cases h : r.key ∈ seen
    · rw [dedupFrom, if_pos h]
      exact (ih seen).cons r
    · rw [dedupFrom, if_neg h]
      exact (ih (r.key :: seen)).cons₂ r

/-- C8: `remove_duplicates` keeps exactly the first occurrence (in input
order) of each `(timestamp, sensor_id)` key, discarding every later reading
with that key regardless of its values, and the kept readings stay in their
original relative order (the output is a sublist of the input); the empty
input yields the empty output. -/
theorem remove_duplicates_first_occurrence (readings : List SensorReading) :
    remove_duplicates readings = specFirstOcc readings
    ∧ (remove_duplicates readings).Sublist readings
    ∧ remove_duplicates ([] : List SensorReading) = [] := by
  have h1 : remove_duplicates readings = dedupFrom [] readings := by
    rw [remove_duplicates, removeDupGo_eq]; rfl
  have h2 : remove_duplicates readings = specFirstOcc readings := by
    rw [h1, dedupFrom_eq_spec]
    congr 1
    simp
  exact ⟨h2, h1 ▸ dedupFrom_sublist readings [], rfl⟩

/-! ### Helper lemmas: grouping and statistics -/

lemma mem_foldl_groupKeys (l : List SensorReading) :
    ∀ ks s, s ∈ l.foldl (fun ks r => if r.sensor_id ∈ ks then ks else ks ++ [r.sensor_id]) ks ↔
      s ∈ ks ∨ ∃ r ∈ l, r.sensor_id = s := by
  induction l with
  | nil => intro ks s; simp
  | cons r rest ih =>
    intro ks s
    rw [List.foldl_cons, ih]
    by_cases h : r.sensor_id ∈ ks
    · rw [if_pos h]
      constructor
      · rintro (hs | hs)
        · exact Or.inl hs
        · exact Or.inr (by rcases hs with ⟨r', hr', he⟩; exact ⟨r', List.mem_cons_of_mem _ hr', he⟩)
      · rintro (hs | ⟨r', hr', he⟩)
        · exact Or.inl hs
        · rcases List.mem_cons.1 hr' with rfl | hr'
          · exact Or.inl (he ▸ h)
          · exact Or.inr ⟨r', hr', he⟩
    · rw [if_neg h]
      constructor
      · rintro (hs | hs)
        · rcases List.mem_append.1 hs with hs | hs
          · exact Or.inl hs
          · exact Or.inr ⟨r, List.mem_cons_self r rest, (List.mem_singleton.1 hs).symm⟩
        · exact Or.inr (by rcases hs with ⟨r', hr', he⟩; exact ⟨r', List.mem_cons_of_mem _ hr', he⟩)
      · rintro (hs | ⟨r', hr', he⟩)
        · exact Or.inl (List.mem_append.2 (Or.inl hs))
        · rcases List.mem_cons.1 hr' with rfl | hr'
          · exact Or.inl (List.mem_append.2 (Or.inr (by simp [he])))
          · exact Or.inr ⟨r', hr', he⟩

lemma mem_groupKeys {l : List SensorReading} {s : String} :
    s ∈ groupKeys l ↔ ∃ r ∈ l, r.sensor_id = s := by
  rw [groupKeys, mem_foldl_groupKeys]
  simp

lemma groupKeys_nodup (l : List SensorReading) : (groupKeys l).Nodup := by
  have aux : ∀ (l : List SensorReading) (ks : List String), ks.Nodup →
      (l.foldl (fun ks r => if r.sensor_id ∈ ks then ks else ks ++ [r.sensor_id]) ks).Nodup := by
    intro l
    induction l with
    | nil => intro ks h; simpa using h
    | cons r rest ih =>
      intro ks h
      rw [List.foldl_cons]
      by_cases hm : r.sensor_id ∈ ks
      · rw [if_pos hm]; exact ih ks h
      · rw [if_neg hm]
        exact ih _ (by simp [List.nodup_append, h, hm])
  exact aux l [] List.nodup_nil

lemma lookup_map_self {β : Type} (f : String → β) :
    ∀ (ks : List String) (s : String), s ∈ ks →
      (ks.map fun k => (k, f k)).lookup s = some (f s) := by
  intro ks
  induction ks with
  | nil => intro s h; simp at h
  | cons k rest ih =>
    intro s h
    rw [List.map_cons, List.lookup_cons]
    by_cases he : s = k
    · simp [he]
    · have hmem : s ∈ rest := by
        rcases List.mem_cons.1 h with h' | h'
        · exact absurd h' he
        · exact h'
      have hbeq : (s == k) = false := beq_eq_false_iff_ne.2 he
      simp only [hbeq]
      exact ih s hmem

lemma lookup_calculate_statistics (sqrt : ℚ → ℚ) (readings : List SensorReading)
    {sid : String} (h : sid ∈ groupKeys readings) :
    (calculate_statistics sqrt readings).lookup sid = some (statsFor sqrt readings sid) :=
  lookup_map_self (statsFor sqrt readings) (groupKeys readings) sid h

lemma length_filterMap_eq_countP {α β : Type} (f : α → Option β) (l : List α) :
    (l.filterMap f).length = l.countP fun a => (f a).isSome := by
  induction l with
  | nil => rfl
  | cons a rest ih =>
    rw [List.filterMap_cons, List.countP_cons]
    cases hf : f a <;> simp [hf, ih]

lemma fieldSamples_length (f : SensorReading → Option ℚ) (sid : String)
    (readings : List SensorReading) :
    (fieldSamples f sid readings).length =
      readings.countP fun r => r.sensor_id == sid && (f r).isSome := by
  rw [fieldSamples, length_filterMap_eq_countP, sensorReadings, List.countP_filter]
  apply List.countP_congr
  intro r _
  by_cases h1 : r.sensor_id = sid <;> simp [h1, Bool.and_comm]

/-- C6: for every sensor id occurring in the input, the `reading_count` of
the `StatsResult` produced by `calculate_statistics` is the maximum, over
the three measurement fields, of the number of that sensor's readings with a
non-NaN value in that field. -/
theorem reading_count_eq_max_nonNaN (sqrt : ℚ → ℚ) (readings : List SensorReading)
    (sid : String) (h : ∃ r ∈ readings, r.sensor_id = sid) :
    ∃ st, (calculate_statistics sqrt readings).lookup sid = some st ∧
      st.reading_count =
        Nat.max (Nat.max
          (readings.countP fun r => r.sensor_id == sid && r.temperature.isSome)
          (readings.countP fun r => r.sensor_id == sid && r.pressure.isSome))
          (readings.countP fun r => r.sensor_id == sid && r.humidity.isSome) := by
  refine ⟨statsFor sqrt readings sid,
    lookup_calculate_statistics sqrt readings (mem_groupKeys.2 h), ?_⟩
  rw [statsFor]
  simp only [fieldSamples_length]

/-- Witness for C6 at a concrete input: two readings of sensor `"TI-A"`, one
with a NaN pressure, give `reading_count = 2 = max (2, 1, 2)`. -/
theorem reading_count_eq_max_nonNaN_witness :
    (∃ r ∈ [(⟨0, "TI-A", some 1, some 2, some 3⟩ : SensorReading),
            ⟨60, "TI-A", some 4, none, some 5⟩], r.sensor_id = "TI-A")
    ∧ ∃ st, (calculate_statistics (fun _ => 0)
        [(⟨0, "TI-A", some 1, some 2, some 3⟩ : SensorReading),
         ⟨60, "TI-A", some 4, none, some 5⟩]).lookup "TI-A" = some st ∧
      st.reading_count =
        Nat.max (Nat.max
          ([(⟨0, "TI-A", some 1, some 2, some 3⟩ : SensorReading),
            ⟨60, "TI-A", some 4, none, some 5⟩].countP
              fun r => r.sensor_id == "TI-A" && r.temperature.isSome)
          ([(⟨0, "TI-A", some 1, some 2, some 3⟩ : SensorReading),
            ⟨60, "TI-A", some 4, none, some 5⟩].countP
              fun r => r.sensor_id == "TI-A" && r.pressure.isSome))
          ([(⟨0, "TI-A", some 1, some 2, some 3⟩ : SensorReading),
            ⟨60, "TI-A", some 4, none, some 5⟩].countP
              fun r => r.sensor_id == "TI-A" && r.humidity.isSome) :=
  ⟨by decide, reading_count_eq_max_nonNaN (fun _ => 0) _ "TI-A" (by decide)⟩

/-- C7: `_compute_stats` on the empty sample list returns all five
statistics NaN (and, being a total function, raises no error); consequently
any sensor field whose non-NaN sample set is empty gets the all-NaN
`FieldStats` in `calculate_statistics`' result. -/
theorem compute_stats_empty_allNaN (sqrt : ℚ → ℚ) (readings : List SensorReading)
    (sid : String) :
    _compute_stats sqrt [] = FieldStats.allNaN
    ∧ (fieldSamples SensorReading.temperature sid readings = [] →
        (statsFor sqrt readings sid).temperature = FieldStats.allNaN)
    ∧ (fieldSamples SensorReading.pressure sid readings = [] →
        (statsFor sqrt readings sid).pressure = FieldStats.allNaN)
    ∧ (fieldSamples SensorReading.humidity sid readings = [] →
        (statsFor sqrt readings sid).humidity = FieldStats.allNaN) := by
  refine ⟨rfl, ?_, ?_, ?_⟩ <;> intro h <;> rw [statsFor] <;> simp only [h] <;> rfl

/-- Witness for C7: a sensor whose only reading has NaN temperature gets the
all-NaN temperature statistics. -/
theorem compute_stats_empty_allNaN_witness :
    _compute_stats (fun _ => 0) [] = FieldStats.allNaN
    ∧ (statsFor (fun _ => 0) [(⟨0, "TI-A", none, some 2, some 3⟩ : SensorReading)]
        "TI-A").temperature = FieldStats.allNaN := by
  have h := compute_stats_empty_allNaN (fun _ => 0)
    [(⟨0, "TI-A", none, some 2, some 3⟩ : SensorReading)] "TI-A"
  exact ⟨h.1, h.2.1 (by decide)⟩

/-! ### Helper lemmas: clamp_outliers -/

/-- Python's `max(lo, min(hi, NaN))` resolves to the upper bound `hi` when
`lo ≤ hi`: `min(hi, NaN)` keeps its first argument because `NaN < hi` is
false, and `max(lo, hi)` then picks `hi`. -/
lemma clampValue_nan {lo hi : ℚ} (h : lo ≤ hi) :
    clampValue (some lo) (some hi) none = some hi := by
  rw [clampValue, pymin]
  simp only [pyLt, Bool.false_eq_true, if_false, pymax]
  rcases lt_or_eq_of_le h with h' | h'
  · simp [pyLt, h']
  · simp [pyLt, h']

lemma clamp_outliers_getD (readings : List SensorReading)
    (tr pr hr : Option ℚ × Option ℚ) (i : Nat) (hlen : i < readings.length) :
    (clamp_outliers readings tr pr hr).getD i defaultReading =
      clampReading tr pr hr (readings.getD i defaultReading) := by
  rw [clamp_outliers, List.getD_eq_getElem?_getD, List.getD_eq_getElem?_getD,
    List.getElem?_map, List.getElem?_eq_getElem hlen]
  rfl

/-- C1 counterexample: a reading whose temperature is NaN does not come out
of `clamp_outliers` (default ranges) with a NaN temperature: it comes out
with the upper bound `150`. -/
theorem clamp_nan_counterexample :
    ((⟨0, "TI-A1B2-C3D4", none, some 500, some 50⟩ : SensorReading).temperature = none)
    ∧ ((clamp_outliers [⟨0, "TI-A1B2-C3D4", none, some 500, some 50⟩]
        temp_range_default pressure_range_default humidity_range_default).getD 0
          defaultReading).temperature = some 150
    ∧ some (150 : ℚ) ≠ (none : Option ℚ) := by
  refine ⟨rfl, ?_, by simp⟩
  with_unfolding_all decide

/-- C1 (amended): for every input reading whose temperature (resp. pressure,
humidity) is NaN, `clamp_outliers` with the default ranges returns a
corresponding output reading in which that field is the range's upper bound
(`150`, `1000`, `100`) rather than NaN. -/
theorem clamp_default_nan_becomes_upper (readings : List SensorReading) (i : Nat)
    (hlen : i < readings.length) :
    ((readings.getD i defaultReading).temperature = none →
      ((clamp_outliers readings temp_range_default pressure_range_default
        humidity_range_default).getD i defaultReading).temperature = some 150)
    ∧ ((readings.getD i defaultReading).pressure = none →
      ((clamp_outliers readings temp_range_default pressure_range_default
        humidity_range_default).getD i defaultReading).pressure = some 1000)
    ∧ ((readings.getD i defaultReading).humidity = none →
      ((clamp_outliers readings temp_range_default pressure_range_default
        humidity_range_default).getD i defaultReading).humidity = some 100) := by
  rw [clamp_outliers_getD readings _ _ _ i hlen]
  refine ⟨fun h => ?_, fun h => ?_, fun h => ?_⟩ <;>
    rw [clampReading] <;> simp only [h] <;>
    exact clampValue_nan (by norm_num)

/-- Witness for the amended C1 at a concrete input. -/
theorem clamp_default_nan_becomes_upper_witness :
    0 < ([(⟨0, "TI-A1B2-C3D4", none, none, none⟩ : SensorReading)] : List SensorReading).length
    ∧ (((⟨0, "TI-A1B2-C3D4", none, none, none⟩ : SensorReading) ::
        ([] : List SensorReading)).getD 0 defaultReading).temperature = none
    ∧ ((clamp_outliers [⟨0, "TI-A1B2-C3D4", none, none, none⟩]
        temp_range_default pressure_range_default humidity_range_default).getD 0
          defaultReading).temperature = some 150 :=
  ⟨by decide, by decide,
    (clamp_default_nan_becomes_upper [⟨0, "TI-A1B2-C3D4", none, none, none⟩] 0
      (by decide)).1 (by decide)⟩

/-- C10: a NaN measurement field is clamped to the *upper* bound of its
range whenever the bounds are ordinary numbers with `lower ≤ upper`, because
`min(upper, NaN)` keeps `upper` (NaN loses every comparison) and
`max(lower, upper) = upper`. -/
theorem clamp_nan_to_upper_bound (readings : List SensorReading)
    (tlo thi plo phi hlo hhi : ℚ) (i : Nat) (hlen : i < readings.length)
    (ht : tlo ≤ thi) (hp : plo ≤ phi) (hh : hlo ≤ hhi) :
    ((readings.getD i defaultReading).temperature = none →
      ((clamp_outliers readings (some tlo, some thi) (some plo, some phi)
        (some hlo, some hhi)).getD i defaultReading).temperature = some thi)
    ∧ ((readings.getD i defaultReading).pressure = none →
      ((clamp_outliers readings (some tlo, some thi) (some plo, some phi)
        (some hlo, some hhi)).getD i defaultReading).pressure = some phi)
    ∧ ((readings.getD i defaultReading).humidity = none →
      ((clamp_outliers readings (some tlo, some thi) (some plo, some phi)
        (some hlo, some hhi)).getD i defaultReading).humidity = some hhi) := by
  rw [clamp_outliers_getD readings _ _ _ i hlen]
  exact ⟨fun h => by rw [clampReading]; simp only [h]; exact clampValue_nan ht,
    fun h => by rw [clampReading]; simp only [h]; exact clampValue_nan hp,
    fun h => by rw [clampReading]; simp only [h]; exact clampValue_nan hh⟩

/-- Witness for C10 at a concrete input: NaN pressure with bounds `(2, 7)`
comes out as `7`. -/
theorem clamp_nan_to_upper_bound_witness :
    0 < ([(⟨5, "TI-A1B2-C3D4", some 1, none, some 3⟩ : SensorReading)] : List SensorReading).length
    ∧ (1 : ℚ) ≤ 6 ∧ (2 : ℚ) ≤ 7 ∧ (0 : ℚ) ≤ 9
    ∧ ((clamp_outliers [⟨5, "TI-A1B2-C3D4", some 1, none, some 3⟩]
        (some 1, some 6) (some 2, some 7) (some 0, some 9)).getD 0
          defaultReading).pressure = some 7 :=
  ⟨by decide, by with_unfolding_all decide, by with_unfolding_all decide,
    by with_unfolding_all decide,
    (clamp_nan_to_upper_bound [⟨5, "TI-A1B2-C3D4", some 1, none, some 3⟩] 1 6 2 7 0 9 0
      (by decide) (by with_unfolding_all decide) (by with_unfolding_all decide)
      (by with_unfolding_all decide)).2.1 (by decide)⟩

/-! ### Helper lemmas: the gap-filling loop -/

lemma fillGapFuel_of_nonpos {interval nextTs : Int} (hi : interval ≤ 0) :
    ∀ (fuel : Nat) (e : Int), e < nextTs →
      (fillGapFuel fuel e nextTs interval).length = fuel := by
  intro fuel
  induction fuel with
  | zero => intro e _; rfl
  | succ n ih =>
    intro e he
    rw [fillGapFuel, if_pos he, List.length_cons, ih (e + interval) (by omega)]

lemma fillGapFuel_length_le {interval nextTs : Int} (hi : 1 ≤ interval) :
    ∀ (fuel : Nat) (e : Int),
      (fillGapFuel fuel e nextTs interval).length ≤ (nextTs - e).toNat := by
  intro fuel
  induction fuel with
  | zero => intro e; simp [fillGapFuel]
  | succ n ih =>
    intro e
    rw [fillGapFuel]
    by_cases he : e < nextTs
    · rw [if_pos he, List.length_cons]
      have h1 := ih (e + interval)
      omega
    · rw [if_neg he]
      simp

/-- C2: at the failing input (two readings of one sensor at `t = 0` and
`t = 60`, `interval_seconds = 0`), the condition of the gap-filling while
loop of `fill_missing_timestamps` holds after every iteration — with fuel
`n` the loop body runs exactly `n` times — so the Python loop never
terminates; a non-positive interval is *not* rejected.  By contrast, for
every positive interval the loop exits on its own: its output is strictly
shorter than a sufficiently large fuel. -/
theorem fill_nonpositive_interval_never_exits :
    (∀ fuel : Nat, (fillGapFuel fuel (0 + 0) 60 0).length = fuel)
    ∧ (∀ (e nextTs interval : Int), 1 ≤ interval →
        ∃ fuel : Nat, (fillGapFuel fuel e nextTs interval).length < fuel) :=
  ⟨fun fuel => fillGapFuel_of_nonpos le_rfl fuel 0 (by omega),
   fun e nextTs interval hi =>
     ⟨(nextTs - e).toNat + 1, lt_of_le_of_lt (fillGapFuel_length_le hi _ e) (by omega)⟩⟩

/-- Witness instantiating the positive-interval half of the C2 theorem. -/
theorem fill_nonpositive_interval_never_exits_witness :
    (fillGapFuel 7 (0 + 0) 60 0).length = 7
    ∧ (1 : Int) ≤ 60
    ∧ ∃ fuel : Nat, (fillGapFuel fuel 0 120 60).length < fuel :=
  ⟨fill_nonpositive_interval_never_exits.1 7, by decide,
    fill_nonpositive_interval_never_exits.2 0 120 60 (by decide)⟩

lemma fillGapFuel_le_mem {interval nextTs : Int} (hi : 0 ≤ interval) :
    ∀ (fuel : Nat) (e t : Int), t ∈ fillGapFuel fuel e nextTs interval → e ≤ t := by
  intro fuel
  induction fuel with
  | zero => intro e t ht; simp [fillGapFuel] at ht
  | succ n ih =>
    intro e t ht
    rw [fillGapFuel] at ht
    by_cases he : e < nextTs
    · rw [if_pos he, List.mem_cons] at ht
      rcases ht with rfl | ht
      · exact le_refl t
      · have := ih (e + interval) t ht
        omega
    · rw [if_neg he] at ht
      simp at ht

lemma fillGapFuel_mem_iff {interval nextTs : Int} (hi : 1 ≤ interval) :
    ∀ (fuel : Nat) (e : Int), (nextTs - e).toNat ≤ fuel →
      ∀ t : Int, t ∈ fillGapFuel fuel e nextTs interval ↔
        ∃ j : Nat, t = e + j * interval ∧ t < nextTs := by
  intro fuel
  induction fuel with
  | zero =>
    intro e hfuel t
    simp only [fillGapFuel, List.not_mem_nil, false_iff]
    rintro ⟨j, rfl, hlt⟩
    have hj : 0 ≤ (j : Int) * interval := mul_nonneg (Int.ofNat_nonneg j) (by omega)
    omega
  | succ n ih =>
    intro e hfuel t
    rw [fillGapFuel]
    by_cases he : e < nextTs
    · rw [if_pos he, List.mem_cons,
        ih (e + interval) (by omega) t]
      constructor
      · rintro (rfl | ⟨j, rfl, hlt⟩)
        · exact ⟨0, by simp, he⟩
        · refine ⟨j + 1, ?_, hlt⟩
          push_cast
          ring
      · rintro ⟨j, rfl, hlt⟩
        cases j with
        | zero => left; simp
        | succ j' =>
          right
          refine ⟨j', ?_, hlt⟩
          push_cast
          ring
    · rw [if_neg he]
      simp only [List.not_mem_nil, false_iff]
      rintro ⟨j, rfl, hlt⟩
      have hj : 0 ≤ (j : Int) * interval := mul_nonneg (Int.ofNat_nonneg j) (by omega)
      omega

lemma fillGapFuel_pairwise {interval nextTs : Int} (hi : 1 ≤ interval) :
    ∀ (fuel : Nat) (e : Int), (fillGapFuel fuel e nextTs interval).Pairwise (· < ·) := by
  intro fuel
  induction fuel with
  | zero => intro e; simp [fillGapFuel]
  | succ n ih =>
    intro e
    rw [fillGapFuel]
    by_cases he : e < nextTs
    · rw [if_pos he, List.pairwise_cons]
      refine ⟨fun t ht => ?_, ih (e + interval)⟩
      have := fillGapFuel_le_mem (by omega) n (e + interval) t ht
      omega
    · rw [if_neg he]; simp

lemma gapTimestamps_mem_iff {curTs nextTs interval : Int} (hi : 1 ≤ interval) (t : Int) :
    t ∈ gapTimestamps curTs nextTs interval ↔
      ∃ k : Nat, 1 ≤ k ∧ t = curTs + k * interval ∧ t < nextTs := by
  rw [gapTimestamps, fillGapFuel_mem_iff hi _ (curTs + interval) (by omega) t]
  constructor
  · rintro ⟨j, rfl, hlt⟩
    refine ⟨j + 1, by omega, ?_, hlt⟩
    push_cast
    ring
  · rintro ⟨k, hk, rfl, hlt⟩
    cases k with
    | zero => omega
    | succ j =>
      refine ⟨j, ?_, hlt⟩
      push_cast
      ring

lemma gapTimestamps_of_small_gap {curTs nextTs interval : Int}
    (h : nextTs - curTs ≤ interval) : gapTimestamps curTs nextTs interval = [] := by
  rw [gapTimestamps, fillGapFuel, if_neg (by omega)]

/-- C3: for a positive interval, the placeholders emitted between two
consecutive same-sensor readings at `curTs < nextTs` are exactly the
readings `placeholderReading sid (curTs + k*interval)` (the sensor's id with
NaN in all three measurement fields) for the integers `k ≥ 1` with
`curTs + k*interval < nextTs`, in strictly increasing timestamp order; a gap
of at most one interval emits nothing, and a 120-second gap with a
60-second interval emits exactly one placeholder at the midpoint. -/
theorem gap_placeholders_exact (sid : String) (curTs nextTs interval : Int)
    (hi : 1 ≤ interval) :
    (∀ p : SensorReading, p ∈ gapPlaceholders sid curTs nextTs interval ↔
      ∃ k : Nat, 1 ≤ k ∧ curTs + k * interval < nextTs ∧
        p = placeholderReading sid (curTs + k * interval))
    ∧ (gapPlaceholders sid curTs nextTs interval).Pairwise
        (fun a b => a.timestamp < b.timestamp)
    ∧ (nextTs - curTs ≤ interval → gapPlaceholders sid curTs nextTs interval = [])
    ∧ gapPlaceholders sid 0 120 60 = [placeholderReading sid 60] := by
  refine ⟨?_, ?_, ?_, ?_⟩
  · intro p
    rw [gapPlaceholders, List.mem_map]
    constructor
    · rintro ⟨t, ht, rfl⟩
      rcases (gapTimestamps_mem_iff hi t).1 ht with ⟨k, hk, rfl, hlt⟩
      exact ⟨k, hk, hlt, rfl⟩
    · rintro ⟨k, hk, hlt, rfl⟩
      exact ⟨curTs + k * interval, (gapTimestamps_mem_iff hi _).2 ⟨k, hk, rfl, hlt⟩, rfl⟩
  · rw [gapPlaceholders, List.pairwise_map]
    exact fillGapFuel_pairwise hi _ _
  · intro h
    rw [gapPlaceholders, gapTimestamps_of_small_gap h, List.map_nil]
  · rw [gapPlaceholders, show gapTimestamps 0 120 60 = [60] from by decide, List.map_cons,
      List.map_nil]

/-- Witness instantiating C3 at the 120-second gap with 60-second interval. -/
theorem gap_placeholders_exact_witness :
    (1 : Int) ≤ 60
    ∧ ((∀ p : SensorReading, p ∈ gapPlaceholders "TI-A1B2-C3D4" 0 120 60 ↔
        ∃ k : Nat, 1 ≤ k ∧ (0 : Int) + k * 60 < 120 ∧
          p = placeholderReading "TI-A1B2-C3D4" ((0 : Int) + k * 60))
      ∧ (gapPlaceholders "TI-A1B2-C3D4" 0 120 60).Pairwise
          (fun a b => a.timestamp < b.timestamp)
      ∧ ((120 : Int) - 0 ≤ 60 → gapPlaceholders "TI-A1B2-C3D4" 0 120 60 = [])
      ∧ gapPlaceholders "TI-A1B2-C3D4" 0 120 60 =
          [placeholderReading "TI-A1B2-C3D4" 60]) :=
  ⟨by decide, gap_placeholders_exact "TI-A1B2-C3D4" 0 120 60 (by decide)⟩

/-! ### Helper lemmas: _compute_stats bounds -/

lemma foldl_min_le (l : List ℚ) : ∀ a : ℚ,
    l.foldl min a ≤ a ∧ ∀ t ∈ l, l.foldl min a ≤ t := by
  induction l with
  | nil => intro a; simp
  | cons b l ih =>
    intro a
    rw [List.foldl_cons]
    rcases ih (min a b) with ⟨h1, h2⟩
    refine ⟨le_trans h1 (min_le_left a b), fun t ht => ?_⟩
    rcases List.mem_cons.1 ht with rfl | ht
    · exact le_trans h1 (min_le_right a t)
    · exact h2 t ht

lemma le_foldl_max (l : List ℚ) : ∀ a : ℚ,
    a ≤ l.foldl max a ∧ ∀ t ∈ l, t ≤ l.foldl max a := by
  induction l with
  | nil => intro a; simp
  | cons b l ih =>
    intro a
    rw [List.foldl_cons]
    rcases ih (max a b) with ⟨h1, h2⟩
    refine ⟨le_trans (le_max_left a b) h1, fun t ht => ?_⟩
    rcases List.mem_cons.1 ht with rfl | ht
    · exact le_trans (le_max_right a t) h1
    · exact h2 t ht

lemma pyListMin_le {l : List ℚ} (hl : l ≠ []) : ∀ t ∈ l, pyListMin l ≤ t := by
  match l with
  | [] => exact absurd rfl hl
  | x :: xs =>
    intro t ht
    rw [pyListMin]
    rcases List.mem_cons.1 ht with rfl | ht
    · exact (foldl_min_le xs t).1
    · exact (foldl_min_le xs x).2 t ht

lemma le_pyListMax {l : List ℚ} (hl : l ≠ []) : ∀ t ∈ l, t ≤ pyListMax l := by
  match l with
  | [] => exact absurd rfl hl
  | x :: xs =>
    intro t ht
    rw [pyListMax]
    rcases List.mem_cons.1 ht with rfl | ht
    · exact (le_foldl_max xs t).1
    · exact (le_foldl_max xs x).2 t ht

lemma getD_mem_of_lt {l : List ℚ} {i : Nat} (h : i < l.length) (d : ℚ) :
    l.getD i d ∈ l := by
  rw [List.getD_eq_getElem?_getD, List.getElem?_eq_getElem h]
  exact List.getElem_mem h

/-- C9: on every non-empty list of numeric samples, `_compute_stats` returns
numeric mean, median, min and max with `min ≤ median ≤ max` and
`min ≤ mean ≤ max`. -/
theorem compute_stats_min_le_median_mean_le_max (sqrt : ℚ → ℚ) (values : List ℚ)
    (h : values ≠ []) :
    ∃ mn med mean mx : ℚ,
      (_compute_stats sqrt values).min = some mn
      ∧ (_compute_stats sqrt values).median = some med
      ∧ (_compute_stats sqrt values).mean = some mean
      ∧ (_compute_stats sqrt values).max = some mx
      ∧ mn ≤ med ∧ med ≤ mx ∧ mn ≤ mean ∧ mean ≤ mx := by
  match values with
  | [] => exact absurd rfl h
  | x :: rest =>
    set vs := x :: rest with hvs
    have hlen : 0 < vs.length := by simp [hvs]
    have hne : vs ≠ [] := by simp [hvs]
    set s := List.insertionSort (· ≤ ·) vs with hs
    have hslen : s.length = vs.length := (List.perm_insertionSort (· ≤ ·) vs).length_eq
    have hsmem : ∀ t ∈ s, t ∈ vs := fun t ht => (List.perm_insertionSort (· ≤ ·) vs).mem_iff.1 ht
    have hminmem : ∀ t ∈ s, pyListMin vs ≤ t := fun t ht => pyListMin_le hne t (hsmem t ht)
    have hmaxmem : ∀ t ∈ s, t ≤ pyListMax vs := fun t ht => le_pyListMax hne t (hsmem t ht)
    have hmean_le : vs.sum / (vs.length : ℚ) ≤ pyListMax vs := by
      rw [div_le_iff₀ (by positivity)]
      have := List.sum_le_card_nsmul vs (pyListMax vs) (le_pyListMax hne)
      rw [nsmul_eq_mul] at this
      linarith
    have hle_mean : pyListMin vs ≤ vs.sum / (vs.length : ℚ) := by
      rw [le_div_iff₀ (by positivity)]
      have := List.card_nsmul_le_sum vs (pyListMin vs) (pyListMin_le hne)
      rw [nsmul_eq_mul] at this
      linarith
    have hmed : pyListMin vs ≤
        (if vs.length % 2 = 0 then (s.getD (vs.length / 2 - 1) 0 + s.getD (vs.length / 2) 0) / 2
         else s.getD (vs.length / 2) 0)
        ∧ (if vs.length % 2 = 0 then (s.getD (vs.length / 2 - 1) 0 + s.getD (vs.length / 2) 0) / 2
           else s.getD (vs.length / 2) 0) ≤ pyListMax vs := by
      by_cases hpar : vs.length % 2 = 0
      · have hi1 : vs.length / 2 - 1 < s.length := by rw [hslen]; omega
        have hi2 : vs.length / 2 < s.length := by rw [hslen]; omega
        have hv1l := hminmem _ (getD_mem_of_lt hi1 0)
        have hv1u := hmaxmem _ (getD_mem_of_lt hi1 0)
        have hv2l := hminmem _ (getD_mem_of_lt hi2 0)
        have hv2u := hmaxmem _ (getD_mem_of_lt hi2 0)
        rw [if_pos hpar]
        constructor <;> linarith
      · have hi : vs.length / 2 < s.length := by rw [hslen]; omega
        have hvl := hminmem _ (getD_mem_of_lt hi 0)
        have hvu := hmaxmem _ (getD_mem_of_lt hi 0)
        rw [if_neg hpar]
        exact ⟨hvl, hvu⟩
    exact ⟨pyListMin vs,
      (if vs.length % 2 = 0 then (s.getD (vs.length / 2 - 1) 0 + s.getD (vs.length / 2) 0) / 2
       else s.getD (vs.length / 2) 0),
      vs.sum / (vs.length : ℚ), pyListMax vs,
      rfl, rfl, rfl, rfl, hmed.1, hmed.2, hle_mean, hmean_le⟩

/-- Witness for C9 on the concrete sample list `[3, 1, 2]`. -/
theorem compute_stats_min_le_median_mean_le_max_witness :
    ([3, 1, 2] : List ℚ) ≠ []
    ∧ ∃ mn med mean mx : ℚ,
      (_compute_stats (fun _ => 0) [3, 1, 2]).min = some mn
      ∧ (_compute_stats (fun _ => 0) [3, 1, 2]).median = some med
      ∧ (_compute_stats (fun _ => 0) [3, 1, 2]).mean = some mean
      ∧ (_compute_stats (fun _ => 0) [3, 1, 2]).max = some mx
      ∧ mn ≤ med ∧ med ≤ mx ∧ mn ≤ mean ∧ mean ≤ mx :=
  ⟨by decide, compute_stats_min_le_median_mean_le_max (fun _ => 0) [3, 1, 2] (by decide)⟩

/-! ### Helper lemmas: detect_anomalies -/

lemma flatMap_congr_mem {α β : Type} {l : List α} {F G : α → List β}
    (h : ∀ x ∈ l, F x = G x) : l.flatMap F = l.flatMap G := by
  induction l with
  | nil => rfl
  | cons a rest ih =>
    rw [List.flatMap_cons, List.flatMap_cons, h a (List.mem_cons_self a rest),
      ih fun x hx => h x (List.mem_cons_of_mem a hx)]

lemma anomaly_check_eq (t : ℚ) (r : SensorReading) (fieldName : String)
    (v : Option ℚ) (fs : FieldStats) :
    (Option.toList (if v.isNone || stdEqZero fs.std then none
      else if pyGtQ (pyDiv (pyAbs (pySub v fs.mean)) fs.std) t then
        some (⟨r, fieldName, v, pyDiv (pyAbs (pySub v fs.mean)) fs.std⟩ : Anomaly)
      else none)) = specAnomaliesFor t r fieldName v fs := by
  rcases v with _ | q
  · simp [specAnomaliesFor]
  · rcases hstd : fs.std with _ | sd
    · simp [stdEqZero, pySub, pyAbs, pyDiv, pyGtQ, specAnomaliesFor, hstd]
    · rcases hmean : fs.mean with _ | m
      · simp [stdEqZero, pySub, pyAbs, pyDiv, pyGtQ, specAnomaliesFor, hstd, hmean]
      · by_cases hz : sd = 0
        · simp [stdEqZero, specAnomaliesFor, hstd, hmean, hz]
        · by_cases hgt : t < |q - m| / sd <;>
            simp [stdEqZero, pySub, pyAbs, pyDiv, pyGtQ, specAnomaliesFor, hstd, hmean, hz, hgt]

lemma filterMap_three {α β : Type} (f : α → Option β) (a b c : α) :
    List.filterMap f [a, b, c] =
      (f a).toList ++ (f b).toList ++ (f c).toList := by
  rcases ha : f a with _ | x <;> rcases hb : f b with _ | y <;> rcases hc : f c with _ | z <;>
    simp [List.filterMap_cons, ha, hb, hc]

/-- C5: `detect_anomalies` returns exactly the anomalies described by
`specAnomalies`: for each reading in input order and for the fields in the
order temperature, pressure, humidity, the value is flagged precisely when
it is not NaN, the field's standard deviation computed by
`calculate_statistics` over the full input is a nonzero number, and the
z-score `|value - mean| / std` strictly exceeds the threshold (a z-score
exactly equal to the threshold is not flagged). -/
theorem detect_anomalies_exact (sqrt : ℚ → ℚ) (readings : List SensorReading) (t : ℚ) :
    detect_anomalies sqrt readings t = specAnomalies sqrt readings t := by
  rw [detect_anomalies, specAnomalies]
  apply flatMap_congr_mem
  intro r hr
  have hsid : r.sensor_id ∈ groupKeys readings := mem_groupKeys.2 ⟨r, hr, rfl⟩
  rw [lookup_calculate_statistics sqrt readings hsid]
  show List.filterMap _ [("temperature", r.temperature, (statsFor sqrt readings r.sensor_id).temperature),
    ("pressure", r.pressure, (statsFor sqrt readings r.sensor_id).pressure),
    ("humidity", r.humidity, (statsFor sqrt readings r.sensor_id).humidity)] = _
  rw [filterMap_three]
  simp only [anomaly_check_eq]

/-! ### Helper lemmas: the final (timestamp, sensor_id) sort -/

lemma keyEq_refl (a : SensorReading) : keyEq a a := ⟨rfl, rfl⟩

lemma keyEq_symm {a b : SensorReading} (h : keyEq a b) : keyEq b a :=
  ⟨h.1.symm, h.2.symm⟩

lemma keyEq_trans {a b c : SensorReading} (h : keyEq a b) (h' : keyEq b c) : keyEq a c :=
  ⟨h.1.trans h'.1, h.2.trans h'.2⟩

lemma keyLe_of_keyEq {a b : SensorReading} (h : keyEq a b) : keyLe a b :=
  Or.inr ⟨h.1, le_of_eq h.2⟩

lemma keyEq_of_keyLe_keyLe {a b : SensorReading} (h : keyLe a b) (h' : keyLe b a) :
    keyEq a b := by
  rcases h with h | ⟨h1, h2⟩ <;> rcases h' with h' | ⟨h1', h2'⟩
  · exact absurd h' (lt_asymm h)
  · exact absurd h (by omega)
  · exact absurd h' (by omega)
  · exact ⟨h1, le_antisymm h2 h2'⟩

lemma orderedInsert_filter_keyEq (a b : SensorReading) :
    ∀ m : List SensorReading,
      (List.orderedInsert keyLe b m).filter (fun x => decide (keyEq x a)) =
        if keyEq b a then b :: m.filter (fun x => decide (keyEq x a))
        else m.filter (fun x => decide (keyEq x a)) := by
  intro m
  induction m with
  | nil =>
    rw [List.orderedInsert]
    by_cases h : keyEq b a <;> simp [h]
  | cons c m ih =>
    rw [List.orderedInsert]
    by_cases hle : keyLe b c
    · rw [if_pos hle, List.filter_cons, List.filter_cons]
      by_cases h : keyEq b a <;> simp [h]
    · rw [if_neg hle, List.filter_cons, List.filter_cons, ih]
      by_cases hc : keyEq c a
      · by_cases hb : keyEq b a
        · exact absurd (keyLe_of_keyEq (keyEq_trans hb (keyEq_symm hc))) hle
        · simp [hc, hb]
      · simp [hc]

lemma insertionSort_filter_keyEq (a : SensorReading) :
    ∀ l : List SensorReading,
      (List.insertionSort keyLe l).filter (fun x => decide (keyEq x a)) =
        l.filter (fun x => decide (keyEq x a)) := by
  intro l
  induction l with
  | nil => rfl
  | cons b l ih =>
    rw [List.insertionSort, orderedInsert_filter_keyEq a b, ih, List.filter_cons]
    by_cases h : keyEq b a <;> simp [h]

lemma eq_of_sorted_of_keyEq_filters :
    ∀ l l' : List SensorReading, l.Pairwise keyLe → l'.Pairwise keyLe →
      (∀ a, l.filter (fun x => decide (keyEq x a)) = l'.filter (fun x => decide (keyEq x a))) →
      l = l' := by
  intro l
  induction l with
  | nil =>
    intro l' _ _ hf
    cases l' with
    | nil => rfl
    | cons y t' =>
      have h := hf y
      rw [List.filter_nil, List.filter_cons] at h
      simp [keyEq_refl] at h
  | cons x t ih =>
    intro l' hs hs' hf
    cases l' with
    | nil =>
      have h := hf x
      rw [List.filter_nil, List.filter_cons] at h
      simp [keyEq_refl] at h
    | cons y t' =>
      have hx : x = y := by
        by_cases hyx : keyEq y x
        · have h := hf x
          rw [List.filter_cons, List.filter_cons] at h
          simp only [keyEq_refl, hyx, decide_True, if_pos] at h
          exact (List.cons.injEq _ _ _ _ ▸ h).1
        · exfalso
          have h := hf x
          rw [List.filter_cons, List.filter_cons] at h
          simp only [keyEq_refl, decide_True, if_pos, hyx, decide_False,
            Bool.false_eq_true, if_false] at h
          have hxmem : x ∈ t' := by
            have hm : x ∈ t'.filter (fun r => decide (keyEq r x)) := by
              rw [← h]; exact List.mem_cons_self _ _
            exact List.mem_of_mem_filter hm
          have hylex : keyLe y x := (List.pairwise_cons.1 hs').1 x hxmem
          have hxy : ¬ keyEq x y := fun hc => hyx (keyEq_symm hc)
          have h2 := hf y
          rw [List.filter_cons, List.filter_cons] at h2
          simp only [keyEq_refl, decide_True, if_pos, hxy, decide_False,
            Bool.false_eq_true, if_false] at h2
          have hymem : y ∈ t := by
            have hm : y ∈ t.filter (fun r => decide (keyEq r y)) := by
              rw [h2]; exact List.mem_cons_self _ _
            exact List.mem_of_mem_filter hm
          have hxley : keyLe x y := (List.pairwise_cons.1 hs).1 y hymem
          exact hyx (keyEq_of_keyLe_keyLe hylex hxley)
      subst hx
      have hf' : ∀ a, t.filter (fun r => decide (keyEq r a)) =
          t'.filter (fun r => decide (keyEq r a)) := by
        intro a
        have h := hf a
        rw [List.filter_cons, List.filter_cons] at h
        by_cases hxa : keyEq x a
        · simp only [hxa, decide_True, if_pos] at h
          exact (List.cons.injEq _ _ _ _ ▸ h).2
        · simpa only [hxa, decide_False, Bool.false_eq_true, if_false] using h
      rw [ih t' (List.pairwise_cons.1 hs).2 (List.pairwise_cons.1 hs').2 hf']

lemma filter_flatMap {α β : Type} (p : β → Bool) (f : α → List β) :
    ∀ l : List α, (l.flatMap f).filter p = l.flatMap fun x => (f x).filter p := by
  intro l
  induction l with
  | nil => rfl
  | cons a l ih =>
    rw [List.flatMap_cons, List.flatMap_cons, List.filter_append, ih]

lemma sensorReadings_filter_keyEq (a : SensorReading) (sid : String)
    (readings : List SensorReading) :
    (sensorReadings sid readings).filter (fun x => decide (keyEq x a)) =
      if sid = a.sensor_id then readings.filter (fun x => decide (keyEq x a)) else [] := by
  rw [sensorReadings, List.filter_filter]
  by_cases h : sid = a.sensor_id
  · rw [if_pos h]
    apply List.filter_congr
    intro r _
    by_cases hk : keyEq r a
    · simp [hk, hk.2, h]
    · simp [hk]
  · rw [if_neg h]
    rw [List.filter_eq_nil_iff]
    intro r _
    by_cases hk : keyEq r a
    · have : r.sensor_id = a.sensor_id := hk.2
      simp [hk, this, h, Ne.symm h]
    · simp [hk]

lemma flatMap_ite_mem (X : List SensorReading) (s : String) :
    ∀ ks : List String, ks.Nodup →
      (ks.flatMap fun k => if k = s then X else []) = if s ∈ ks then X else [] := by
  intro ks
  induction ks with
  | nil => intro _; simp
  | cons k rest ih =>
    intro hnd
    rw [List.flatMap_cons, ih (List.nodup_cons.1 hnd).2]
    by_cases hk : k = s
    · subst hk
      have hkn : k ∉ rest := (List.nodup_cons.1 hnd).1
      simp [hkn]
    · have : (s ∈ k :: rest) ↔ s ∈ rest := by
        rw [List.mem_cons]
        exact or_iff_right (fun hs => hk hs.symm)
      by_cases hs : s ∈ rest <;> simp [hk, hs, this]

lemma flatMap_groups_filter_keyEq (readings : List SensorReading) (a : SensorReading) :
    ((groupKeys readings).flatMap fun sid => sensorReadings sid readings).filter
        (fun x => decide (keyEq x a)) =
      readings.filter (fun x => decide (keyEq x a)) := by
  rw [filter_flatMap]
  rw [flatMap_congr_mem fun sid _ => sensorReadings_filter_keyEq a sid readings]
  rw [flatMap_ite_mem _ _ _ (groupKeys_nodup readings)]
  by_cases h : a.sensor_id ∈ groupKeys readings
  · rw [if_pos h]
  · rw [if_neg h]
    symm
    rw [List.filter_eq_nil_iff]
    intro r hr
    by_cases hk : keyEq r a
    · exact absurd (mem_groupKeys.2 ⟨r, hr, hk.2⟩) (hk.2 ▸ h)
    · simp [hk]

lemma sensorReadings_pairwise_ts {readings : List SensorReading}
    (h : readings.Pairwise keyLe) (sid : String) :
    (sensorReadings sid readings).Pairwise tsLe := by
  have hsub : (sensorReadings sid readings).Sublist readings := List.filter_sublist readings
  refine (List.Pairwise.sublist hsub h).imp ?_
  rintro a b (hlt | ⟨heq, _⟩)
  · exact le_of_lt hlt
  · exact le_of_eq heq

lemma emitWithGaps_id (sid : String) {interval : Int} :
    ∀ g : List SensorReading,
      List.Chain' (fun a b => b.timestamp - a.timestamp ≤ interval) g →
      emitWithGaps sid interval g = g := by
  intro g
  induction g with
  | nil => intro _; rfl
  | cons r rest ih =>
    intro hch
    cases rest with
    | nil => rfl
    | cons r' rest' =>
      have h1 : r'.timestamp - r.timestamp ≤ interval := (List.chain'_cons.1 hch).1
      show r :: (gapPlaceholders sid r.timestamp r'.timestamp interval ++
        emitWithGaps sid interval (r' :: rest')) = r :: r' :: rest'
      rw [gapPlaceholders, gapTimestamps_of_small_gap (by omega), List.map_nil,
        List.nil_append, ih (List.chain'_cons.1 hch).2]

/-- C4: for a positive interval, the output of `fill_missing_timestamps` is
always sorted ascending by `(timestamp, sensor_id)` (sensor ids compared as
plain strings); and whenever the input is already sorted that way and no
sensor's timestamp-sorted partition has a consecutive gap exceeding the
interval, the output equals the input in content and order. -/
theorem fill_sorted_and_gap_free_identity (readings : List SensorReading)
    (interval : Int) (hi : 1 ≤ interval) :
    (fill_missing_timestamps readings interval).Pairwise keyLe
    ∧ (readings.Pairwise keyLe →
        (∀ sid ∈ groupKeys readings,
          List.Chain' (fun a b => b.timestamp - a.timestamp ≤ interval)
            (List.insertionSort tsLe (sensorReadings sid readings))) →
        fill_missing_timestamps readings interval = readings) := by
  constructor
  · cases readings with
    | nil => simp [fill_missing_timestamps]
    | cons r rest => exact List.sorted_insertionSort keyLe _
  · intro hsorted hgapfree
    cases readings with
    | nil => rfl
    | cons r rest =>
      have hbody : ((groupKeys (r :: rest)).flatMap fun sid =>
            emitWithGaps sid interval
              (List.insertionSort tsLe (sensorReadings sid (r :: rest)))) =
          (groupKeys (r :: rest)).flatMap fun sid => sensorReadings sid (r :: rest) := by
        apply flatMap_congr_mem
        intro sid hsid
        have hgsorted : (sensorReadings sid (r :: rest)).Pairwise tsLe :=
          sensorReadings_pairwise_ts hsorted sid
        have heq : List.insertionSort tsLe (sensorReadings sid (r :: rest)) =
            sensorReadings sid (r :: rest) := List.Sorted.insertionSort_eq hgsorted
        rw [heq]
        apply emitWithGaps_id
        have hch := hgapfree sid hsid
        rwa [heq] at hch
      show List.insertionSort keyLe ((groupKeys (r :: rest)).flatMap fun sid =>
        emitWithGaps sid interval
          (List.insertionSort tsLe (sensorReadings sid (r :: rest)))) = r :: rest
      rw [hbody]
      apply eq_of_sorted_of_keyEq_filters
      · exact List.sorted_insertionSort keyLe _
      · exact hsorted
      · intro a
        rw [insertionSort_filter_keyEq, flatMap_groups_filter_keyEq]

/-- Witness instantiating C4 on a sorted, gap-free two-reading input. -/
theorem fill_sorted_and_gap_free_identity_witness :
    (1 : Int) ≤ 60
    ∧ ([(⟨0, "TI-A1B2-C3D4", some 1, some 2, some 3⟩ : SensorReading),
        ⟨60, "TI-A1B2-C3D4", some 4, some 5, some 6⟩] : List SensorReading).Pairwise keyLe
    ∧ (∀ sid ∈ groupKeys [(⟨0, "TI-A1B2-C3D4", some 1, some 2, some 3⟩ : SensorReading),
          ⟨60, "TI-A1B2-C3D4", some 4, some 5, some 6⟩],
        List.Chain' (fun a b => b.timestamp - a.timestamp ≤ 60)
          (List.insertionSort tsLe (sensorReadings sid
            [(⟨0, "TI-A1B2-C3D4", some 1, some 2, some 3⟩ : SensorReading),
             ⟨60, "TI-A1B2-C3D4", some 4, some 5, some 6⟩])))
    ∧ fill_missing_timestamps
        [(⟨0, "TI-A1B2-C3D4", some 1, some 2, some 3⟩ : SensorReading),
         ⟨60, "TI-A1B2-C3D4", some 4, some 5, some 6⟩] 60 =
        [(⟨0, "TI-A1B2-C3D4", some 1, some 2, some 3⟩ : SensorReading),
         ⟨60, "TI-A1B2-C3D4", some 4, some 5, some 6⟩] := by
  have hp : ([(⟨0, "TI-A1B2-C3D4", some 1, some 2, some 3⟩ : SensorReading),
      ⟨60, "TI-A1B2-C3D4", some 4, some 5, some 6⟩] : List SensorReading).Pairwise keyLe := by
    decide
  have hc : ∀ sid ∈ groupKeys [(⟨0, "TI-A1B2-C3D4", some 1, some 2, some 3⟩ : SensorReading),
        ⟨60, "TI-A1B2-C3D4", some 4, some 5, some 6⟩],
      List.Chain' (fun a b => b.timestamp - a.timestamp ≤ 60)
        (List.insertionSort tsLe (sensorReadings sid
          [(⟨0, "TI-A1B2-C3D4", some 1, some 2, some 3⟩ : SensorReading),
           ⟨60, "TI-A1B2-C3D4", some 4, some 5, some 6⟩])) := by
    intro sid hsid
    have hg : groupKeys [(⟨0, "TI-A1B2-C3D4", some 1, some 2, some 3⟩ : SensorReading),
        ⟨60, "TI-A1B2-C3D4", some 4, some 5, some 6⟩] = ["TI-A1B2-C3D4"] := by decide
    rw [hg, List.mem_singleton] at hsid
    subst hsid
    have hs : List.insertionSort tsLe (sensorReadings "TI-A1B2-C3D4"
        [(⟨0, "TI-A1B2-C3D4", some 1, some 2, some 3⟩ : SensorReading),
         ⟨60, "TI-A1B2-C3D4", some 4, some 5, some 6⟩]) =
        [(⟨0, "TI-A1B2-C3D4", some 1, some 2, some 3⟩ : SensorReading),
         ⟨60, "TI-A1B2-C3D4", some 4, some 5, some 6⟩] := by decide
    rw [hs]
    exact List.chain'_cons.2 ⟨by decide, List.chain'_singleton _⟩
  exact ⟨by decide, hp, hc,
    (fill_sorted_and_gap_free_identity
      [(⟨0, "TI-A1B2-C3D4", some 1, some 2, some 3⟩ : SensorReading),
       ⟨60, "TI-A1B2-C3D4", some 4, some 5, some 6⟩] 60 (by decide)).2 hp hc⟩
